import Mathlib

/-!
Shallow embedding of `validate_performance.py` (statistical performance
validation tool).  Python floats are modelled as real numbers, the mutable
`self.violations` list as explicit state passing, and the empty-sample
`ValueError` as `Option.none`.
-/

noncomputable section

/-- `PerformanceValidator.MIN_SAMPLE_SIZE`. -/
def MIN_SAMPLE_SIZE : ℕ := 30

/-- `PerformanceValidator.SIGNIFICANCE_LEVEL`. -/
def SIGNIFICANCE_LEVEL : ℝ := 0.05

/-- `PerformanceValidator.MIN_EFFECT_SIZE`. -/
def MIN_EFFECT_SIZE : ℝ := 0.5

/-- `PerformanceValidator.CONFIDENCE_LEVEL`. -/
def CONFIDENCE_LEVEL : ℝ := 0.95

/-- `PerformanceValidator.MAX_CV`. -/
def MAX_CV : ℝ := 0.3

/-- `statistics.mean` (callers guarantee a non-empty list). -/
def mean (l : List ℝ) : ℝ := l.sum / l.length

/-- Python `sorted` on reals: the ascending sorted permutation of the list. -/
def sortList (l : List ℝ) : List ℝ := l.insertionSort (· ≤ ·)

/-- `statistics.median` (callers guarantee a non-empty list). -/
def median (l : List ℝ) : ℝ :=
  let s := sortList l
  let n := l.length
  if n % 2 = 1 then s.getD (n / 2) 0
  else (s.getD (n / 2 - 1) 0 + s.getD (n / 2) 0) / 2

/-- Sample variance with Bessel correction (callers guarantee `2 ≤ n`). -/
def sampleVariance (l : List ℝ) : ℝ :=
  (l.map (fun x => (x - mean l) ^ 2)).sum / ((l.length : ℝ) - 1)

/-- `statistics.stdev`: square root of the Bessel-corrected sample variance. -/
def stdev (l : List ℝ) : ℝ := Real.sqrt (sampleVariance l)

/-- Python `min` over a list (callers guarantee non-emptiness). -/
def listMin : List ℝ → ℝ
  | [] => 0
  | x :: xs => xs.foldl min x

/-- Python `max` over a list (callers guarantee non-emptiness). -/
def listMax : List ℝ → ℝ
  | [] => 0
  | x :: xs => xs.foldl max x

/-- Python `int()` applied to a real: truncation toward zero. -/
def pyInt (x : ℝ) : ℤ := if 0 ≤ x then ⌊x⌋ else -⌊-x⌋

/-- `PerformanceValidator._percentile`. -/
def percentile (sorted_values : List ℝ) (p : ℝ) : ℝ :=
  if sorted_values.length = 0 then 0
  else if sorted_values.length = 1 then sorted_values.getD 0 0
  else
    let n : ℕ := sorted_values.length
    let rank : ℝ := (p / 100) * ((n : ℝ) - 1)
    let lower_idx : ℤ := pyInt rank
    let upper_idx : ℤ := min (lower_idx + 1) ((n : ℤ) - 1)
    if lower_idx = upper_idx then sorted_values.getD lower_idx.toNat 0
    else
      let weight : ℝ := rank - (lower_idx : ℝ)
      sorted_values.getD lower_idx.toNat 0 * (1 - weight) +
        sorted_values.getD upper_idx.toNat 0 * weight

/-- `StatisticalSummary` dataclass. -/
structure StatisticalSummary where
  sample_size : ℕ
  mean : ℝ
  median : ℝ
  std_dev : ℝ
  min_val : ℝ
  max_val : ℝ
  p25 : ℝ
  p75 : ℝ
  p95 : ℝ
  p99 : ℝ
  confidence_interval_95 : ℝ × ℝ
  coefficient_variation : ℝ

/-- Body of `PerformanceValidator.calculate_statistics` after the
emptiness guard. -/
def calcSummary (values : List ℝ) : StatisticalSummary :=
  let n := values.length
  let mean_val := mean values
  let median_val := median values
  let std_dev : ℝ := if 1 < n then stdev values else 0
  let sorted_vals := sortList values
  let p25 := percentile sorted_vals 25
  let p75 := percentile sorted_vals 75
  let p95 := percentile sorted_vals 95
  let p99 := percentile sorted_vals 99
  let ci : ℝ × ℝ :=
    if 1 < n then
      (mean_val - 1.96 * (std_dev / Real.sqrt (n : ℝ)),
        mean_val + 1.96 * (std_dev / Real.sqrt (n : ℝ)))
    else (mean_val, mean_val)
  let cv : ℝ := if mean_val ≠ 0 then std_dev / mean_val else 0
  { sample_size := n, mean := mean_val, median := median_val, std_dev := std_dev,
    min_val := listMin values, max_val := listMax values,
    p25 := p25, p75 := p75, p95 := p95, p99 := p99,
    confidence_interval_95 := ci, coefficient_variation := cv }

/-- `PerformanceValidator.calculate_statistics`; `none` models the
`ValueError` raised on an empty dataset. -/
def calculate_statistics : List ℝ → Option StatisticalSummary
  | [] => none
  | v :: vs => some (calcSummary (v :: vs))

/-- `PerformanceValidator._norm_cdf`. -/
def norm_cdf (x : ℝ) : ℝ :=
  if x > 6 then 1
  else if x < -6 then 0
  else 0.5 + 0.5 * Real.tanh (x * 0.7)

/-- The pooled standard error computed inside `two_sample_ttest`. -/
def pooled_se (baseline optimized : List ℝ) : ℝ :=
  Real.sqrt (stdev baseline ^ 2 / (baseline.length : ℝ) +
    stdev optimized ^ 2 / (optimized.length : ℝ))

/-- `PerformanceValidator.two_sample_ttest`, returning `(t_stat, p_value)`. -/
def two_sample_ttest (baseline optimized : List ℝ) : ℝ × ℝ :=
  if baseline.length < 2 ∨ optimized.length < 2 then (0, 1)
  else if pooled_se baseline optimized = 0 then (0, 1)
  else
    let t_stat := (mean optimized - mean baseline) / pooled_se baseline optimized
    let p_value := 2 * (1 - norm_cdf |t_stat|)
    (t_stat, min p_value 1)

/-- The pooled standard deviation computed inside `cohens_d`. -/
def pooled_std (baseline optimized : List ℝ) : ℝ :=
  Real.sqrt ((((baseline.length : ℝ) - 1) * stdev baseline ^ 2 +
      ((optimized.length : ℝ) - 1) * stdev optimized ^ 2) /
    ((baseline.length : ℝ) + (optimized.length : ℝ) - 2))

/-- `PerformanceValidator.cohens_d`. -/
def cohens_d (baseline optimized : List ℝ) : ℝ :=
  if baseline.length < 2 ∨ optimized.length < 2 then 0
  else if pooled_std baseline optimized = 0 then 0
  else (mean optimized - mean baseline) / pooled_std baseline optimized

/-- Entries of the mutable `self.violations` list, abstracting the
formatted f-string messages by the data they carry. -/
inductive Violation where
  | insufficientSampleSize (n required : ℕ)
  | highBaselineVariability (cv maxCv : ℝ)
  | highOptimizedVariability (cv maxCv : ℝ)

/-- `PerformanceValidator.validate_sample_size`: returns the boolean result
together with the updated violations list. -/
def validate_sample_size (violations : List Violation) (n : ℕ) : Bool × List Violation :=
  if n < MIN_SAMPLE_SIZE then
    (false, violations ++ [Violation.insufficientSampleSize n MIN_SAMPLE_SIZE])
  else (true, violations)

/-- `ComparisonResult` dataclass. -/
structure ComparisonResult where
  baseline_stats : StatisticalSummary
  optimized_stats : StatisticalSummary
  improvement_percent : ℝ
  improvement_absolute : ℝ
  p_value : ℝ
  cohens_d : ℝ
  confidence_interval_diff : ℝ × ℝ
  statistical_significance : Bool
  practical_significance : Bool
  sample_adequate : Bool

/-- `PerformanceValidator.validate_performance_comparison`.  The first
argument is the violations state held by the validator instance before the
call (reset at the start of the body); the result pairs the returned
`ComparisonResult` (`none` when an empty sample raises) with the violations
state after the call.  Python's short-circuiting `and` between the two
sample-size checks is modelled by the conditional on `r1.1`. -/
def validate_performance_comparison (violations₀ : List Violation)
    (baseline_data optimized_data : List ℝ) : Option ComparisonResult × List Violation :=
  let violations : List Violation := []
  let r1 := validate_sample_size violations baseline_data.length
  let r2 := if r1.1 then validate_sample_size r1.2 optimized_data.length else (false, r1.2)
  let sample_adequate := r2.1
  let violations := r2.2
  match calculate_statistics baseline_data, calculate_statistics optimized_data with
  | none, _ => (none, violations)
  | some _, none => (none, violations)
  | some baseline_stats, some optimized_stats =>
    let violations := if baseline_stats.coefficient_variation > MAX_CV then
        violations ++ [Violation.highBaselineVariability baseline_stats.coefficient_variation MAX_CV]
      else violations
    let violations := if optimized_stats.coefficient_variation > MAX_CV then
        violations ++ [Violation.highOptimizedVariability optimized_stats.coefficient_variation MAX_CV]
      else violations
    let improvement_absolute := optimized_stats.mean - baseline_stats.mean
    let improvement_percent := if baseline_stats.mean ≠ 0 then
        improvement_absolute / baseline_stats.mean * 100 else 0
    let tp := two_sample_ttest baseline_data optimized_data
    let p_value := tp.2
    let effect_size := cohens_d baseline_data optimized_data
    let statistical_significance := decide (p_value < SIGNIFICANCE_LEVEL)
    let practical_significance := decide (|effect_size| ≥ MIN_EFFECT_SIZE)
    let ci : ℝ × ℝ :=
      if 1 < baseline_data.length ∧ 1 < optimized_data.length then
        let se_diff := Real.sqrt (baseline_stats.std_dev ^ 2 / (baseline_data.length : ℝ) +
          optimized_stats.std_dev ^ 2 / (optimized_data.length : ℝ))
        (improvement_absolute - 1.96 * se_diff, improvement_absolute + 1.96 * se_diff)
      else (improvement_absolute, improvement_absolute)
    (some { baseline_stats := baseline_stats, optimized_stats := optimized_stats,
            improvement_percent := improvement_percent,
            improvement_absolute := improvement_absolute,
            p_value := p_value, cohens_d := effect_size,
            confidence_interval_diff := ci,
            statistical_significance := statistical_significance,
            practical_significance := practical_significance,
            sample_adequate := sample_adequate }, violations)

/-- `PerformanceValidator._is_claim_valid`, taking the violations state
explicitly. -/
def is_claim_valid (comparison : ComparisonResult) (violations : List Violation) : Bool :=
  comparison.sample_adequate && comparison.statistical_significance &&
    comparison.practical_significance && decide (violations.length = 0)

/-- The evaluated `StatisticalSummary` of the one-element sample `[1]`. -/
def summaryOne : StatisticalSummary :=
  { sample_size := 1, mean := 1, median := 1, std_dev := 0, min_val := 1, max_val := 1,
    p25 := 1, p75 := 1, p95 := 1, p99 := 1, confidence_interval_95 := (1, 1),
    coefficient_variation := 0 }

/-- The evaluated `ComparisonResult` of comparing `[1]` against `[1]`. -/
def comparisonOne : ComparisonResult :=
  { baseline_stats := summaryOne, optimized_stats := summaryOne,
    improvement_percent := 0, improvement_absolute := 0, p_value := 1, cohens_d := 0,
    confidence_interval_diff := (0, 0), statistical_significance := false,
    practical_significance := false, sample_adequate := false }

/-- Recognizer for sample-size violation entries. -/
def Violation.isSampleSize : Violation → Bool
  | .insufficientSampleSize _ _ => true
  | _ => false

/-- The interpolation formula stated by the spec for the percentile
estimator: rank, floor lower index, capped upper index, fractional weight. -/
noncomputable def interpFormula (l : List ℝ) (p : ℝ) : ℝ :=
  let n := l.length
  let rank : ℝ := (p / 100) * ((n : ℝ) - 1)
  let lower_idx : ℤ := ⌊rank⌋
  let upper_idx : ℤ := min (lower_idx + 1) ((n : ℤ) - 1)
  let weight : ℝ := rank - (lower_idx : ℝ)
  l.getD lower_idx.toNat 0 * (1 - weight) + l.getD upper_idx.toNat 0 * weight

/-- The interpolation of `interpFormula` as a function of the real rank. -/
noncomputable def interpAt (s : List ℝ) (r : ℝ) : ℝ :=
  let lower_idx : ℤ := ⌊r⌋
  let upper_idx : ℤ := min (lower_idx + 1) ((s.length : ℤ) - 1)
  let weight : ℝ := r - (lower_idx : ℝ)
  s.getD lower_idx.toNat 0 * (1 - weight) + s.getD upper_idx.toNat 0 * weight

end

/-- C10: calling `validate_performance_comparison` with an empty baseline
yields the empty-sample error (`none`), but the violations state has already
been reset and repopulated with the baseline insufficient-sample-size
violation — the error path is not atomic with respect to that state. -/
theorem claim10_error_path_violations_state :
    ∀ (st : List Violation) (o : List ℝ),
      validate_performance_comparison st [] o =
        (none, [Violation.insufficientSampleSize 0 MIN_SAMPLE_SIZE]) :=
  fun _ _ => rfl

/-- C9: the violations state is reset at the start of every call, so a second
call with identical inputs (starting from the state the first call left
behind) returns exactly the same result and violations; and for non-empty
inputs the call does return a `ComparisonResult`. -/
theorem claim9_repeat_call_identical :
    (∀ (st : List Violation) (b o : List ℝ),
      validate_performance_comparison ((validate_performance_comparison st b o).2) b o =
        validate_performance_comparison st b o) ∧
    (∀ b o : List ℝ, b ≠ [] → o ≠ [] →
      ((validate_performance_comparison [] b o).1).isSome = true) := by
  constructor
  · intro st b o
    rfl
  · intro b o hb ho
    match b, o with
    | bx :: bs, ox :: os => rfl

/-- C9 witness: at `[1]`, `[1]` the hypotheses hold and the call succeeds. -/
theorem claim9_witness :
    ([1] : List ℝ) ≠ [] ∧ ([1] : List ℝ) ≠ [] ∧
      ((validate_performance_comparison [] [1] [1]).1).isSome = true :=
  ⟨by simp, by simp, claim9_repeat_call_identical.2 [1] [1] (by simp) (by simp)⟩

/-- C6: `calculate_statistics` fails (models the `ValueError`) exactly on the
empty sample, and `validate_performance_comparison` returns no
`ComparisonResult` exactly when the baseline or the optimized sample is
empty. -/
theorem claim6_empty_sample_error_propagation :
    (∀ l : List ℝ, calculate_statistics l = none ↔ l = []) ∧
    (∀ l : List ℝ, (calculate_statistics l).isSome = true ↔ l ≠ []) ∧
    (∀ (st : List Violation) (b o : List ℝ),
      (validate_performance_comparison st b o).1 = none ↔ (b = [] ∨ o = [])) := by
  refine ⟨?_, ?_, ?_⟩
  · intro l
    cases l with
    | nil => simp [calculate_statistics]
    | cons x xs => simp [calculate_statistics]
  · intro l
    cases l with
    | nil => simp [calculate_statistics]
    | cons x xs => simp [calculate_statistics]
  · intro st b o
    cases b with
    | nil => simp [validate_performance_comparison, calculate_statistics]
    | cons bx bs =>
      cases o with
      | nil => simp [validate_performance_comparison, calculate_statistics]
      | cons ox os => simp [validate_performance_comparison, calculate_statistics]

/-- C4: the two-sample t-test falls back to `(t, p) = (0, 1)` whenever either
sample has fewer than 2 elements or the pooled standard error is zero, and
Cohen's d is 0 whenever either sample has fewer than 2 elements or the
pooled standard deviation is zero — defined values, no exception. -/
theorem claim4_degenerate_fallback :
    (∀ b o : List ℝ, (b.length < 2 ∨ o.length < 2 ∨ pooled_se b o = 0) →
      two_sample_ttest b o = (0, 1)) ∧
    (∀ b o : List ℝ, (b.length < 2 ∨ o.length < 2 ∨ pooled_std b o = 0) →
      cohens_d b o = 0) := by
  constructor
  · intro b o h
    unfold two_sample_ttest
    rcases h with h | h | h
    · rw [if_pos (Or.inl h)]
    · rw [if_pos (Or.inr h)]
    · by_cases hn : b.length < 2 ∨ o.length < 2
      · rw [if_pos hn]
      · rw [if_neg hn, if_pos h]
  · intro b o h
    unfold cohens_d
    rcases h with h | h | h
    · rw [if_pos (Or.inl h)]
    · rw [if_pos (Or.inr h)]
    · by_cases hn : b.length < 2 ∨ o.length < 2
      · rw [if_pos hn]
      · rw [if_neg hn, if_pos h]

/-- C4 witness: a one-element baseline triggers the fallback of both the
t-test and Cohen's d. -/
theorem claim4_witness :
    ((([1] : List ℝ).length < 2 ∨ ([1, 1] : List ℝ).length < 2 ∨ pooled_se [1] [1, 1] = 0) ∧
      two_sample_ttest [1] [1, 1] = (0, 1)) ∧
    ((([1] : List ℝ).length < 2 ∨ ([1, 1] : List ℝ).length < 2 ∨ pooled_std [1] [1, 1] = 0) ∧
      cohens_d [1] [1, 1] = 0) :=
  ⟨⟨Or.inl (by norm_num), claim4_degenerate_fallback.1 _ _ (Or.inl (by norm_num))⟩,
    ⟨Or.inl (by norm_num), claim4_degenerate_fallback.2 _ _ (Or.inl (by norm_num))⟩⟩

theorem calcSummary_mean (l : List ℝ) : (calcSummary l).mean = mean l := rfl

theorem calcSummary_median (l : List ℝ) : (calcSummary l).median = median l := rfl

theorem calcSummary_std_dev (l : List ℝ) :
    (calcSummary l).std_dev = if 1 < l.length then stdev l else 0 := rfl

theorem calcSummary_min_val (l : List ℝ) : (calcSummary l).min_val = listMin l := rfl

theorem calcSummary_max_val (l : List ℝ) : (calcSummary l).max_val = listMax l := rfl

theorem calcSummary_p25 (l : List ℝ) : (calcSummary l).p25 = percentile (sortList l) 25 := rfl

theorem calcSummary_p75 (l : List ℝ) : (calcSummary l).p75 = percentile (sortList l) 75 := rfl

theorem calcSummary_ci (l : List ℝ) :
    (calcSummary l).confidence_interval_95 =
      if 1 < l.length then
        (mean l - 1.96 * ((if 1 < l.length then stdev l else 0) / Real.sqrt (l.length : ℝ)),
          mean l + 1.96 * ((if 1 < l.length then stdev l else 0) / Real.sqrt (l.length : ℝ)))
      else (mean l, mean l) := rfl

theorem calcSummary_cv (l : List ℝ) :
    (calcSummary l).coefficient_variation =
      if mean l ≠ 0 then (if 1 < l.length then stdev l else 0) / mean l else 0 := rfl

theorem mean_replicate {n : ℕ} (hn : 0 < n) (v : ℝ) :
    mean (List.replicate n v) = v := by
  simp [mean, List.sum_replicate, nsmul_eq_mul]
  field_simp

theorem sampleVariance_replicate {n : ℕ} (hn : 0 < n) (v : ℝ) :
    sampleVariance (List.replicate n v) = 0 := by
  simp [sampleVariance, mean_replicate hn, List.map_replicate, List.sum_replicate]

theorem stdev_replicate {n : ℕ} (hn : 0 < n) (v : ℝ) :
    stdev (List.replicate n v) = 0 := by
  simp [stdev, sampleVariance_replicate hn]

theorem mean_singleton (x : ℝ) : mean [x] = x := by
  simpa using mean_replicate Nat.one_pos x

theorem calcSummary_one : calcSummary [(1 : ℝ)] = summaryOne := by
  simp [calcSummary, summaryOne, mean, median, sortList, percentile, listMin, listMax,
    List.insertionSort, List.orderedInsert]

theorem tt_one : two_sample_ttest [(1:ℝ)] [(1:ℝ)] = (0, 1) := by
  simp [two_sample_ttest]

theorem cd_one : cohens_d [(1:ℝ)] [(1:ℝ)] = 0 := by
  simp [cohens_d]

theorem validate_one_one_eval :
    validate_performance_comparison [] [1] [1] =
      (some comparisonOne, [Violation.insufficientSampleSize 1 MIN_SAMPLE_SIZE]) := by
  have h1 : calculate_statistics [(1:ℝ)] = some summaryOne := by
    rw [calculate_statistics]
    rw [calcSummary_one]
  rw [validate_performance_comparison]
  rw [h1]
  simp only [validate_sample_size, MIN_SAMPLE_SIZE, List.length_cons, List.length_nil]
  norm_num [summaryOne, MAX_CV, tt_one, cd_one, comparisonOne,
    SIGNIFICANCE_LEVEL, MIN_EFFECT_SIZE, decide_eq_false_iff_not]

/-- C1: the overall claim-validity boolean exposed after
`validate_performance_comparison` is true iff sample adequacy, statistical
significance, practical significance all hold and the violations list is
empty; any single failure makes the verdict false regardless of the
others (conjunctive gate). -/
theorem claim1_conjunctive_gate :
    ∀ (st : List Violation) (b o : List ℝ) (r : ComparisonResult) (vs : List Violation),
      validate_performance_comparison st b o = (some r, vs) →
      ((is_claim_valid r vs = true ↔
          (r.sample_adequate = true ∧ r.statistical_significance = true ∧
            r.practical_significance = true ∧ vs = [])) ∧
        ((r.sample_adequate = false ∨ r.statistical_significance = false ∨
            r.practical_significance = false ∨ vs ≠ []) →
          is_claim_valid r vs = false)) := by
  intro st b o r vs _
  have key : is_claim_valid r vs = true ↔
      (r.sample_adequate = true ∧ r.statistical_significance = true ∧
        r.practical_significance = true ∧ vs = []) := by
    simp [is_claim_valid, Bool.and_eq_true, decide_eq_true_iff, List.length_eq_zero,
      and_assoc]
  refine ⟨key, ?_⟩
  intro h
  cases hv : is_claim_valid r vs with
  | false => rfl
  | true =>
    obtain ⟨h1, h2, h3, h4⟩ := key.mp hv
    rcases h with h | h | h | h <;> simp_all

/-- C1 witness: the gate instantiated at the concrete call on `[1]`, `[1]`. -/
theorem claim1_witness :
    validate_performance_comparison [] [1] [1] =
      (some comparisonOne, [Violation.insufficientSampleSize 1 MIN_SAMPLE_SIZE]) ∧
    ((is_claim_valid comparisonOne [Violation.insufficientSampleSize 1 MIN_SAMPLE_SIZE] = true ↔
        (comparisonOne.sample_adequate = true ∧
          comparisonOne.statistical_significance = true ∧
          comparisonOne.practical_significance = true ∧
          ([Violation.insufficientSampleSize 1 MIN_SAMPLE_SIZE] : List Violation) = [])) ∧
      ((comparisonOne.sample_adequate = false ∨
          comparisonOne.statistical_significance = false ∨
          comparisonOne.practical_significance = false ∨
          ([Violation.insufficientSampleSize 1 MIN_SAMPLE_SIZE] : List Violation) ≠ []) →
        is_claim_valid comparisonOne [Violation.insufficientSampleSize 1 MIN_SAMPLE_SIZE] = false)) :=
  ⟨validate_one_one_eval,
    claim1_conjunctive_gate [] [1] [1] comparisonOne _ validate_one_one_eval⟩

/-- C8: a constant sample of one repeated value `v` with `n ≥ 2` yields
`std_dev = 0`, `coefficient_of_variation = 0` and the point confidence
interval `(v, v)`; a single-element sample yields `std_dev = 0`, `cv = 0`
and the point interval `(mean, mean)`. -/
theorem claim8_constant_sample :
    (∀ (n : ℕ) (v : ℝ), 2 ≤ n →
      calculate_statistics (List.replicate n v) = some (calcSummary (List.replicate n v)) ∧
      (calcSummary (List.replicate n v)).std_dev = 0 ∧
      (calcSummary (List.replicate n v)).coefficient_variation = 0 ∧
      (calcSummary (List.replicate n v)).confidence_interval_95 = (v, v)) ∧
    (∀ x : ℝ,
      calculate_statistics [x] = some (calcSummary [x]) ∧
      (calcSummary [x]).std_dev = 0 ∧
      (calcSummary [x]).coefficient_variation = 0 ∧
      (calcSummary [x]).confidence_interval_95 =
        ((calcSummary [x]).mean, (calcSummary [x]).mean)) := by
  constructor
  · intro n v hn
    have hpos : 0 < n := by omega
    have hlen : (List.replicate n v).length = n := List.length_replicate n v
    have h1n : 1 < (List.replicate n v).length := by omega
    refine ⟨?_, ?_, ?_, ?_⟩
    · obtain ⟨m, rfl⟩ : ∃ m, n = m + 1 := ⟨n - 1, by omega⟩
      rw [List.replicate_succ]
      rfl
    · rw [calcSummary_std_dev, if_pos h1n, stdev_replicate hpos]
    · rw [calcSummary_cv]
      rw [if_pos h1n, stdev_replicate hpos, mean_replicate hpos]
      simp
    · rw [calcSummary_ci, if_pos h1n, if_pos h1n, stdev_replicate hpos, mean_replicate hpos]
      norm_num
  · intro x
    refine ⟨rfl, ?_, ?_, ?_⟩
    · rw [calcSummary_std_dev]
      norm_num
    · rw [calcSummary_cv]
      norm_num
    · rw [calcSummary_ci, calcSummary_mean]
      norm_num

/-- C8 witness: instantiated at the constant sample `replicate 2 3`. -/
theorem claim8_witness :
    (2 ≤ 2 ∧
      calculate_statistics (List.replicate 2 (3 : ℝ)) =
        some (calcSummary (List.replicate 2 (3 : ℝ))) ∧
      (calcSummary (List.replicate 2 (3 : ℝ))).std_dev = 0 ∧
      (calcSummary (List.replicate 2 (3 : ℝ))).coefficient_variation = 0 ∧
      (calcSummary (List.replicate 2 (3 : ℝ))).confidence_interval_95 = (3, 3)) :=
  ⟨le_refl 2, claim8_constant_sample.1 2 3 (le_refl 2)⟩

theorem cv_replicate {n : ℕ} (hn : 0 < n) (v : ℝ) :
    (calcSummary (List.replicate n v)).coefficient_variation = 0 := by
  rw [calcSummary_cv, mean_replicate hn]
  rcases Nat.lt_or_ge 1 (List.replicate n v).length with h | h
  · rw [if_pos h, stdev_replicate hn]
    simp
  · rw [if_neg (Nat.not_lt.mpr h)]
    simp

/-- C2 counterexample: with baseline `[1]*5` and optimized `[1]*7` (both
under the required 30), the violations list records only the baseline
sample-size violation (count 5); no violation naming the optimized count 7
is present, refuting the claim that both sides are flagged. -/
theorem claim2_counterexample :
    (validate_performance_comparison [] (List.replicate 5 1) (List.replicate 7 1)).2 =
      [Violation.insufficientSampleSize 5 MIN_SAMPLE_SIZE] ∧
    Violation.insufficientSampleSize 7 MIN_SAMPLE_SIZE ∉
      (validate_performance_comparison [] (List.replicate 5 1) (List.replicate 7 1)).2 := by
  have hb : calculate_statistics (List.replicate 5 (1:ℝ)) =
      some (calcSummary (List.replicate 5 (1:ℝ))) := rfl
  have ho : calculate_statistics (List.replicate 7 (1:ℝ)) =
      some (calcSummary (List.replicate 7 (1:ℝ))) := rfl
  have key : (validate_performance_comparison [] (List.replicate 5 1) (List.replicate 7 1)).2 =
      [Violation.insufficientSampleSize 5 MIN_SAMPLE_SIZE] := by
    rw [validate_performance_comparison, hb, ho]
    simp only [validate_sample_size, MIN_SAMPLE_SIZE, List.length_replicate]
    norm_num [cv_replicate, MAX_CV]
  refine ⟨key, ?_⟩
  rw [key]
  simp [MIN_SAMPLE_SIZE]

/-- C2 (amended): for non-empty samples both under `MIN_SAMPLE_SIZE`,
`sample_adequate` is false but the violation list carries exactly one
sample-size violation — the baseline's, naming its count versus the
required count; the optimized side's check is skipped by the
short-circuiting `and`. -/
theorem claim2_amended_short_circuit :
    ∀ (st : List Violation) (b o : List ℝ), b ≠ [] → o ≠ [] →
      b.length < MIN_SAMPLE_SIZE → o.length < MIN_SAMPLE_SIZE →
      Option.map ComparisonResult.sample_adequate
        (validate_performance_comparison st b o).1 = some false ∧
      ((validate_performance_comparison st b o).2.filter Violation.isSampleSize) =
        [Violation.insufficientSampleSize b.length MIN_SAMPLE_SIZE] := by
  intro st b o hb ho hbl hol
  match b, o with
  | bx :: bs, ox :: os =>
    rw [validate_performance_comparison]
    have h1 : validate_sample_size [] (bx :: bs).length =
        (false, [Violation.insufficientSampleSize (bx :: bs).length MIN_SAMPLE_SIZE]) := by
      rw [validate_sample_size, if_pos hbl]
      rfl
    rw [calculate_statistics, calculate_statistics]
    simp only [h1, Bool.false_eq_true, if_false]
    constructor
    · rfl
    · split_ifs <;> simp [Violation.isSampleSize, List.filter_append]

/-- C2 witness: the amended statement instantiated at `[1]`, `[1]`. -/
theorem claim2_witness :
    ([1] : List ℝ) ≠ [] ∧ ([1] : List ℝ) ≠ [] ∧
      ([1] : List ℝ).length < MIN_SAMPLE_SIZE ∧ ([1] : List ℝ).length < MIN_SAMPLE_SIZE ∧
      (Option.map ComparisonResult.sample_adequate
          (validate_performance_comparison [] [1] [1]).1 = some false ∧
        ((validate_performance_comparison [] [1] [1]).2.filter Violation.isSampleSize) =
          [Violation.insufficientSampleSize ([1] : List ℝ).length MIN_SAMPLE_SIZE]) := by
  refine ⟨by simp, by simp, by norm_num [MIN_SAMPLE_SIZE], by norm_num [MIN_SAMPLE_SIZE], ?_⟩
  exact claim2_amended_short_circuit [] [1] [1] (by simp) (by simp)
    (by norm_num [MIN_SAMPLE_SIZE]) (by norm_num [MIN_SAMPLE_SIZE])

theorem tanh_lt_one (x : ℝ) : Real.tanh x < 1 := by
  rw [Real.tanh_eq_sinh_div_cosh, div_lt_one (Real.cosh_pos x)]
  exact Real.sinh_lt_cosh x

theorem neg_one_lt_tanh (x : ℝ) : -1 < Real.tanh x := by
  have h := Real.sinh_lt_cosh (-x)
  rw [Real.sinh_neg, Real.cosh_neg] at h
  rw [Real.tanh_eq_sinh_div_cosh, lt_div_iff₀ (Real.cosh_pos x)]
  linarith

theorem tanh_nonneg {x : ℝ} (hx : 0 ≤ x) : 0 ≤ Real.tanh x := by
  rw [Real.tanh_eq_sinh_div_cosh]
  exact div_nonneg (Real.sinh_nonneg_iff.mpr hx) (Real.cosh_pos x).le

theorem norm_cdf_le_one (x : ℝ) : norm_cdf x ≤ 1 := by
  rw [norm_cdf]
  split_ifs with h1 h2
  · exact le_refl 1
  · norm_num
  · nlinarith [tanh_lt_one (x * 0.7)]

theorem norm_cdf_nonneg (x : ℝ) : 0 ≤ norm_cdf x := by
  rw [norm_cdf]
  split_ifs with h1 h2
  · norm_num
  · exact le_refl 0
  · nlinarith [neg_one_lt_tanh (x * 0.7)]

theorem half_le_norm_cdf {x : ℝ} (hx : 0 ≤ x) : 1 / 2 ≤ norm_cdf x := by
  rw [norm_cdf]
  split_ifs with h1 h2
  · norm_num
  · linarith
  · nlinarith [tanh_nonneg (show (0:ℝ) ≤ x * 0.7 by nlinarith)]

/-- C7: for samples of length at least 2 with nonzero pooled standard
error, the returned p-value equals `2*(1 - Φ(|t|))` where `Φ` is the
tanh-based approximate normal CDF saturating to 0/1 beyond `|x| = 6`,
and every returned p-value lies in `[0, 1]`. -/
theorem claim7_p_value :
    (∀ b o : List ℝ, 2 ≤ b.length → 2 ≤ o.length → pooled_se b o ≠ 0 →
      (two_sample_ttest b o).2 =
        2 * (1 - norm_cdf |(two_sample_ttest b o).1|)) ∧
    (∀ x : ℝ, (6 < x → norm_cdf x = 1) ∧ (x < -6 → norm_cdf x = 0) ∧
      (|x| ≤ 6 → norm_cdf x = 0.5 + 0.5 * Real.tanh (0.7 * x))) ∧
    (∀ b o : List ℝ, 0 ≤ (two_sample_ttest b o).2 ∧ (two_sample_ttest b o).2 ≤ 1) := by
  refine ⟨?_, ?_, ?_⟩
  · intro b o hb ho hse
    have hn : ¬ (b.length < 2 ∨ o.length < 2) := by omega
    rw [two_sample_ttest, if_neg hn, if_neg hse]
    simp only
    have hp : 2 * (1 - norm_cdf |(mean o - mean b) / pooled_se b o|) ≤ 1 := by
      have := half_le_norm_cdf (abs_nonneg ((mean o - mean b) / pooled_se b o))
      linarith
    rw [min_eq_left hp]
  · intro x
    refine ⟨?_, ?_, ?_⟩
    · intro h
      rw [norm_cdf, if_pos h]
    · intro h
      rw [norm_cdf, if_neg (by push_neg; linarith), if_pos h]
    · intro h
      rw [abs_le] at h
      rw [norm_cdf, if_neg (by linarith), if_neg (by linarith), mul_comm x 0.7]
  · intro b o
    rw [two_sample_ttest]
    split_ifs with h1 h2
    · norm_num
    · norm_num
    · simp only
      constructor
      · have := norm_cdf_le_one |(mean o - mean b) / pooled_se b o|
        have h0 : (0:ℝ) ≤ 2 * (1 - norm_cdf |(mean o - mean b) / pooled_se b o|) := by linarith
        exact le_min h0 (by norm_num)
      · exact min_le_right _ _

theorem pooled_se_two_obs : pooled_se [0, 2] [5, 5] = 1 := by
  have hv : sampleVariance [(0:ℝ), 2] = 2 := by
    norm_num [sampleVariance, mean]
  have h1 : stdev [(0:ℝ), 2] ^ 2 = 2 := by
    rw [stdev, Real.sq_sqrt (by rw [hv]; norm_num)]
    exact hv
  have h2 : stdev [(5:ℝ), 5] = 0 := by
    simpa using stdev_replicate (n := 2) (by norm_num) (5 : ℝ)
  rw [pooled_se, h1, h2]
  norm_num

/-- C7 witness: instantiated at `[0,2]` vs `[5,5]`, where the pooled
standard error equals 1. -/
theorem claim7_witness :
    2 ≤ ([0, 2] : List ℝ).length ∧ 2 ≤ ([5, 5] : List ℝ).length ∧
      pooled_se [0, 2] [5, 5] ≠ 0 ∧
      (two_sample_ttest [0, 2] [5, 5]).2 =
        2 * (1 - norm_cdf |(two_sample_ttest [0, 2] [5, 5]).1|) :=
  ⟨by norm_num, by norm_num, by rw [pooled_se_two_obs]; norm_num,
    claim7_p_value.1 [0, 2] [5, 5] (by norm_num) (by norm_num)
      (by rw [pooled_se_two_obs]; norm_num)⟩

theorem percentile_eq_interpFormula {l : List ℝ} {p : ℝ} (hlen : 2 ≤ l.length)
    (hp0 : 0 ≤ p) : percentile l p = interpFormula l p := by
  have h0 : ¬ l.length = 0 := by omega
  have h1 : ¬ l.length = 1 := by omega
  have hrank : 0 ≤ (p / 100) * ((l.length : ℝ) - 1) := by
    have h2 : (2 : ℝ) ≤ (l.length : ℝ) := by exact_mod_cast hlen
    have := div_nonneg hp0 (by norm_num : (0:ℝ) ≤ 100)
    nlinarith
  have hpy : pyInt ((p / 100) * ((l.length : ℝ) - 1)) =
      ⌊(p / 100) * ((l.length : ℝ) - 1)⌋ := by
    rw [pyInt, if_pos hrank]
  rw [percentile, interpFormula]
  simp only [if_neg h0, if_neg h1, hpy]
  by_cases heq : ⌊(p / 100) * ((l.length : ℝ) - 1)⌋ =
      min (⌊(p / 100) * ((l.length : ℝ) - 1)⌋ + 1) ((l.length : ℤ) - 1)
  · rw [if_pos heq, ← heq]
    ring
  · rw [if_neg heq]

theorem interpFormula_concrete : interpFormula [10, 20, 30, 40] 50 = 25 := by
  have hfl : ⌊(50 / 100 : ℝ) * ((4 : ℝ) - 1)⌋ = 1 := by
    rw [show (50 / 100 : ℝ) * ((4 : ℝ) - 1) = 3 / 2 by norm_num, Int.floor_eq_iff]
    constructor <;> norm_num
  rw [interpFormula]
  simp only [List.length_cons, List.length_nil]
  norm_num [hfl]
  simp only [show Int.toNat 2 = 2 from rfl]
  norm_num

/-- C3: on an ascending-sorted list of length at least 2 and `p` in
`[0, 100]`, `_percentile` returns the linear-interpolation formula
`value[lower]*(1-weight) + value[upper]*weight` with `rank = (p/100)*(n-1)`,
`lower = floor rank`, `upper = min (lower+1) (n-1)`, `weight = rank - lower`;
the empty list yields 0, a singleton yields its element for any `p`, and
`percentile [10,20,30,40] 50 = 25`. -/
theorem claim3_percentile_formula :
    (∀ (l : List ℝ) (p : ℝ), l.Sorted (· ≤ ·) → 2 ≤ l.length → 0 ≤ p → p ≤ 100 →
      percentile l p = interpFormula l p) ∧
    (∀ p : ℝ, percentile [] p = 0) ∧
    (∀ p x : ℝ, percentile [x] p = x) ∧
    percentile [10, 20, 30, 40] 50 = 25 := by
  refine ⟨?_, fun p => rfl, fun p x => rfl, ?_⟩
  · intro l p _ hlen hp0 _
    exact percentile_eq_interpFormula hlen hp0
  · rw [percentile_eq_interpFormula (by norm_num) (by norm_num)]
    exact interpFormula_concrete

/-- C3 witness: the formula instantiated at `[10,20,30,40]`, `p = 50`. -/
theorem claim3_witness :
    ([10, 20, 30, 40] : List ℝ).Sorted (· ≤ ·) ∧ 2 ≤ ([10, 20, 30, 40] : List ℝ).length ∧
      (0 : ℝ) ≤ 50 ∧ (50 : ℝ) ≤ 100 ∧
      percentile [10, 20, 30, 40] 50 = interpFormula [10, 20, 30, 40] 50 := by
  have hs : ([10, 20, 30, 40] : List ℝ).Sorted (· ≤ ·) := by
    simp [List.sorted_cons]
    norm_num
  exact ⟨hs, by norm_num, by norm_num, by norm_num,
    claim3_percentile_formula.1 [10, 20, 30, 40] 50 hs (by norm_num) (by norm_num) (by norm_num)⟩

theorem foldl_min_le_init : ∀ (xs : List ℝ) (a : ℝ), xs.foldl min a ≤ a := by
  intro xs
  induction xs with
  | nil => intro a; exact le_refl a
  | cons y ys ih => intro a; exact le_trans (ih (min a y)) (min_le_left a y)

theorem foldl_min_le_mem : ∀ (xs : List ℝ) (a x : ℝ), x ∈ xs → xs.foldl min a ≤ x := by
  intro xs
  induction xs with
  | nil => intro a x hx; cases hx
  | cons y ys ih =>
    intro a x hx
    rcases List.mem_cons.mp hx with rfl | hx
    · exact le_trans (foldl_min_le_init ys (min a x)) (min_le_right a x)
    · exact ih (min a y) x hx

theorem listMin_le_mem {l : List ℝ} {x : ℝ} (hx : x ∈ l) : listMin l ≤ x := by
  cases l with
  | nil => cases hx
  | cons y ys =>
    rcases List.mem_cons.mp hx with rfl | hx
    · exact foldl_min_le_init ys x
    · exact foldl_min_le_mem ys y x hx

theorem init_le_foldl_max : ∀ (xs : List ℝ) (a : ℝ), a ≤ xs.foldl max a := by
  intro xs
  induction xs with
  | nil => intro a; exact le_refl a
  | cons y ys ih => intro a; exact le_trans (le_max_left a y) (ih (max a y))

theorem mem_le_foldl_max : ∀ (xs : List ℝ) (a x : ℝ), x ∈ xs → x ≤ xs.foldl max a := by
  intro xs
  induction xs with
  | nil => intro a x hx; cases hx
  | cons y ys ih =>
    intro a x hx
    rcases List.mem_cons.mp hx with rfl | hx
    · exact le_trans (le_max_right a x) (init_le_foldl_max ys (max a x))
    · exact ih (max a y) x hx

theorem mem_le_listMax {l : List ℝ} {x : ℝ} (hx : x ∈ l) : x ≤ listMax l := by
  cases l with
  | nil => cases hx
  | cons y ys =>
    rcases List.mem_cons.mp hx with rfl | hx
    · exact init_le_foldl_max ys x
    · exact mem_le_foldl_max ys y x hx

theorem sorted_getD_mono {s : List ℝ} (hs : s.Sorted (· ≤ ·)) {i j : ℕ}
    (hij : i ≤ j) (hj : j < s.length) : s.getD i 0 ≤ s.getD j 0 := by
  rw [List.getD_eq_getElem s 0 (lt_of_le_of_lt hij hj), List.getD_eq_getElem s 0 hj]
  exact List.Sorted.rel_get_of_le hs hij

theorem getD_mem {s : List ℝ} {i : ℕ} (hi : i < s.length) : s.getD i 0 ∈ s := by
  rw [List.getD_eq_getElem s 0 hi]
  exact List.getElem_mem hi

theorem interpFormula_eq_interpAt (l : List ℝ) (p : ℝ) :
    interpFormula l p = interpAt l ((p / 100) * ((l.length : ℝ) - 1)) := rfl

theorem interpAt_index_facts {s : List ℝ} {r : ℝ} (hlen : 2 ≤ s.length)
    (hr0 : 0 ≤ r) (hr1 : r ≤ (s.length : ℝ) - 1) :
    0 ≤ ⌊r⌋ ∧ ⌊r⌋ ≤ (s.length : ℤ) - 1 ∧ ⌊r⌋.toNat < s.length ∧
      (min (⌊r⌋ + 1) ((s.length : ℤ) - 1)).toNat < s.length ∧
      ⌊r⌋.toNat ≤ (min (⌊r⌋ + 1) ((s.length : ℤ) - 1)).toNat := by
  have h0 : 0 ≤ ⌊r⌋ := Int.floor_nonneg.mpr hr0
  have h1 : ⌊r⌋ ≤ (s.length : ℤ) - 1 := by
    have h := Int.floor_le_floor hr1
    rwa [show ((s.length : ℝ) - 1) = (((s.length : ℤ) - 1 : ℤ) : ℝ) by push_cast; ring,
      Int.floor_intCast] at h
  refine ⟨h0, h1, by omega, by omega, by omega⟩

theorem weight_facts (r : ℝ) : 0 ≤ r - (⌊r⌋ : ℝ) ∧ r - (⌊r⌋ : ℝ) < 1 := by
  rw [Int.self_sub_floor]
  exact ⟨Int.fract_nonneg r, Int.fract_lt_one r⟩

theorem interpAt_bounds {s : List ℝ} {r m M : ℝ} (hlen : 2 ≤ s.length)
    (hr0 : 0 ≤ r) (hr1 : r ≤ (s.length : ℝ) - 1)
    (hm : ∀ x ∈ s, m ≤ x) (hM : ∀ x ∈ s, x ≤ M) :
    m ≤ interpAt s r ∧ interpAt s r ≤ M := by
  obtain ⟨h0, h1, hli, hui, _⟩ := interpAt_index_facts hlen hr0 hr1
  obtain ⟨hw0, hw1⟩ := weight_facts r
  have ham := hm _ (getD_mem hli)
  have hbm := hm _ (getD_mem hui)
  have haM := hM _ (getD_mem hli)
  have hbM := hM _ (getD_mem hui)
  rw [interpAt]
  constructor
  · nlinarith [mul_nonneg (sub_nonneg.mpr ham) (by linarith : (0:ℝ) ≤ 1 - (r - (⌊r⌋ : ℝ))),
      mul_nonneg (sub_nonneg.mpr hbm) hw0]
  · nlinarith [mul_nonneg (sub_nonneg.mpr haM) (by linarith : (0:ℝ) ≤ 1 - (r - (⌊r⌋ : ℝ))),
      mul_nonneg (sub_nonneg.mpr hbM) hw0]

theorem interpAt_mono {s : List ℝ} (hs : s.Sorted (· ≤ ·)) (hlen : 2 ≤ s.length)
    {r1 r2 : ℝ} (h0 : 0 ≤ r1) (h12 : r1 ≤ r2) (h2 : r2 ≤ (s.length : ℝ) - 1) :
    interpAt s r1 ≤ interpAt s r2 := by
  obtain ⟨hA0, hA1, hAi, hAu, hAiu⟩ := interpAt_index_facts hlen h0 (le_trans h12 h2)
  obtain ⟨hB0, hB1, hBi, hBu, hBiu⟩ := interpAt_index_facts hlen (le_trans h0 h12) h2
  obtain ⟨hw10, hw11⟩ := weight_facts r1
  obtain ⟨hw20, hw21⟩ := weight_facts r2
  have hfl : ⌊r1⌋ ≤ ⌊r2⌋ := Int.floor_le_floor h12
  have hab1 : s.getD ⌊r1⌋.toNat 0 ≤ s.getD (min (⌊r1⌋ + 1) ((s.length : ℤ) - 1)).toNat 0 :=
    sorted_getD_mono hs hAiu hAu
  have hab2 : s.getD ⌊r2⌋.toNat 0 ≤ s.getD (min (⌊r2⌋ + 1) ((s.length : ℤ) - 1)).toNat 0 :=
    sorted_getD_mono hs hBiu hBu
  rw [interpAt, interpAt]
  rcases eq_or_lt_of_le hfl with heq | hlt
  · rw [heq]
    have hw12 : r1 - (⌊r2⌋ : ℝ) ≤ r2 - (⌊r2⌋ : ℝ) := by linarith
    rw [heq] at hab1
    nlinarith [mul_nonneg (sub_nonneg.mpr hab1) (sub_nonneg.mpr hw12)]
  · have hmid : s.getD (min (⌊r1⌋ + 1) ((s.length : ℤ) - 1)).toNat 0 ≤
        s.getD ⌊r2⌋.toNat 0 := by
      apply sorted_getD_mono hs ?_ hBi
      omega
    nlinarith [mul_nonneg (sub_nonneg.mpr hab1) (by linarith : (0:ℝ) ≤ 1 - (r1 - (⌊r1⌋ : ℝ))),
      mul_nonneg (sub_nonneg.mpr hab2) hw20]

theorem rank_facts {n : ℕ} (hn : 2 ≤ n) {p : ℝ} (hp0 : 0 ≤ p) (hp1 : p ≤ 100) :
    0 ≤ (p / 100) * ((n : ℝ) - 1) ∧ (p / 100) * ((n : ℝ) - 1) ≤ (n : ℝ) - 1 := by
  have h2 : (2 : ℝ) ≤ (n : ℝ) := by exact_mod_cast hn
  have hd0 : 0 ≤ p / 100 := div_nonneg hp0 (by norm_num)
  have hd1 : p / 100 ≤ 1 := by
    rw [div_le_one (by norm_num : (0:ℝ) < 100)]
    exact hp1
  constructor
  · exact mul_nonneg hd0 (by linarith)
  · nlinarith

theorem percentile_le_percentile {s : List ℝ} (hs : s.Sorted (· ≤ ·)) {p q : ℝ}
    (hp0 : 0 ≤ p) (hpq : p ≤ q) (hq : q ≤ 100) :
    percentile s p ≤ percentile s q := by
  rcases Nat.lt_or_ge s.length 2 with h2 | h2
  · rcases Nat.lt_or_ge s.length 1 with h1 | h1
    · have e : ∀ x : ℝ, percentile s x = 0 := by
        intro x
        rw [percentile, if_pos (by omega : s.length = 0)]
      rw [e p, e q]
    · have e : ∀ x : ℝ, percentile s x = s.getD 0 0 := by
        intro x
        rw [percentile, if_neg (by omega), if_pos (by omega : s.length = 1)]
      rw [e p, e q]
  · rw [percentile_eq_interpFormula h2 hp0, percentile_eq_interpFormula h2 (le_trans hp0 hpq),
      interpFormula_eq_interpAt, interpFormula_eq_interpAt]
    obtain ⟨hr0, _⟩ := rank_facts h2 hp0 (le_trans hpq hq)
    obtain ⟨_, hr1⟩ := rank_facts h2 (le_trans hp0 hpq) hq
    apply interpAt_mono hs h2 hr0 ?_ hr1
    have h2' : (2 : ℝ) ≤ (s.length : ℝ) := by exact_mod_cast h2
    have : p / 100 ≤ q / 100 := by linarith
    nlinarith

theorem percentile_between {l : List ℝ} (hl : l ≠ []) {p : ℝ} (hp0 : 0 ≤ p) (hp1 : p ≤ 100) :
    listMin l ≤ percentile (sortList l) p ∧ percentile (sortList l) p ≤ listMax l := by
  have hlen : (sortList l).length = l.length := List.length_insertionSort _ _
  have hm : ∀ x ∈ sortList l, listMin l ≤ x := fun x hx =>
    listMin_le_mem (((List.perm_insertionSort _ l).mem_iff).mp hx)
  have hM : ∀ x ∈ sortList l, x ≤ listMax l := fun x hx =>
    mem_le_listMax (((List.perm_insertionSort _ l).mem_iff).mp hx)
  rcases Nat.lt_or_ge l.length 2 with h2 | h2
  · have h1 : l.length = 1 := by
      have : l.length ≠ 0 := fun h => hl (List.length_eq_zero.mp h)
      omega
    have hmem : (sortList l).getD 0 0 ∈ sortList l := getD_mem (by omega)
    rw [percentile, if_neg (by omega), if_pos (by omega)]
    exact ⟨hm _ hmem, hM _ hmem⟩
  · rw [percentile_eq_interpFormula (by omega) hp0, interpFormula_eq_interpAt]
    obtain ⟨hr0, hr1⟩ := rank_facts (n := (sortList l).length) (by omega) hp0 hp1
    exact interpAt_bounds (by omega) hr0 hr1 hm hM

theorem median_eq_percentile_50 {l : List ℝ} (hl : l ≠ []) :
    median l = percentile (sortList l) 50 := by
  have hlen : (sortList l).length = l.length := List.length_insertionSort _ _
  have hne : l.length ≠ 0 := fun h => hl (List.length_eq_zero.mp h)
  rcases Nat.lt_or_ge l.length 2 with h2 | h2
  · have h1 : l.length = 1 := by omega
    rw [median]
    rw [if_pos (show l.length % 2 = 1 by omega)]
    rw [show l.length / 2 = 0 by omega]
    rw [percentile]
    rw [if_neg (show ¬ (sortList l).length = 0 by omega)]
    rw [if_pos (show (sortList l).length = 1 by omega)]
  · rw [percentile_eq_interpFormula (by omega) (by norm_num), interpFormula_eq_interpAt, hlen]
    rcases Nat.even_or_odd l.length with ⟨m, hm⟩ | ⟨m, hm⟩
    · -- even: length = m + m, m ≥ 1
      have hm1 : 1 ≤ m := by omega
      have hrank : (50 / 100 : ℝ) * ((l.length : ℝ) - 1) = (m : ℝ) - 1 / 2 := by
        rw [hm]
        push_cast
        ring
      have hfl : ⌊(m : ℝ) - 1 / 2⌋ = (m : ℤ) - 1 := by
        rw [Int.floor_eq_iff]
        push_cast
        constructor <;> linarith
      rw [interpAt, hrank, hfl]
      have hmin : min ((m : ℤ) - 1 + 1) (((sortList l).length : ℤ) - 1) = (m : ℤ) := by
        omega
      rw [hmin]
      rw [median]
      rw [if_neg (show ¬ l.length % 2 = 1 by omega)]
      rw [show l.length / 2 = m by omega]
      rw [show ((m : ℤ) - 1).toNat = m - 1 by omega, show ((m : ℤ)).toNat = m by omega]
      push_cast
      ring
    · -- odd: length = 2 * m + 1, m ≥ 1
      have hm1 : 1 ≤ m := by omega
      have hrank : (50 / 100 : ℝ) * ((l.length : ℝ) - 1) = (m : ℝ) := by
        rw [hm]
        push_cast
        ring
      have hfl : ⌊(m : ℝ)⌋ = (m : ℤ) := Int.floor_natCast m
      rw [interpAt, hrank, hfl]
      have hmin : min ((m : ℤ) + 1) (((sortList l).length : ℤ) - 1) = (m : ℤ) + 1 := by
        omega
      rw [hmin]
      rw [median]
      rw [if_pos (show l.length % 2 = 1 by omega)]
      rw [show l.length / 2 = m by omega]
      rw [show ((m : ℤ)).toNat = m by omega, show ((m : ℤ) + 1).toNat = m + 1 by omega]
      push_cast
      ring

/-- C5: every summary produced by `calculate_statistics` satisfies
`min ≤ p25 ≤ median ≤ p75 ≤ max`, `std_dev ≥ 0`, and the coefficient of
variation equals `std_dev/mean` when the mean is nonzero and 0 when the
mean is zero. -/
theorem claim5_summary_invariants :
    ∀ (l : List ℝ) (sm : StatisticalSummary), calculate_statistics l = some sm →
      sm.min_val ≤ sm.p25 ∧ sm.p25 ≤ sm.median ∧ sm.median ≤ sm.p75 ∧
      sm.p75 ≤ sm.max_val ∧ 0 ≤ sm.std_dev ∧
      (sm.mean ≠ 0 → sm.coefficient_variation = sm.std_dev / sm.mean) ∧
      (sm.mean = 0 → sm.coefficient_variation = 0) := by
  intro l sm hsm
  cases l with
  | nil => exact absurd hsm (by simp [calculate_statistics])
  | cons v vs =>
    rw [calculate_statistics] at hsm
    injection hsm with hsm
    subst hsm
    have hl : v :: vs ≠ ([] : List ℝ) := by simp
    have hsorted : (sortList (v :: vs)).Sorted (· ≤ ·) := List.sorted_insertionSort _ _
    refine ⟨?_, ?_, ?_, ?_, ?_, ?_, ?_⟩
    · rw [calcSummary_min_val, calcSummary_p25]
      exact (percentile_between hl (by norm_num) (by norm_num)).1
    · rw [calcSummary_p25, calcSummary_median, median_eq_percentile_50 hl]
      exact percentile_le_percentile hsorted (by norm_num) (by norm_num) (by norm_num)
    · rw [calcSummary_median, calcSummary_p75, median_eq_percentile_50 hl]
      exact percentile_le_percentile hsorted (by norm_num) (by norm_num) (by norm_num)
    · rw [calcSummary_p75, calcSummary_max_val]
      exact (percentile_between hl (by norm_num) (by norm_num)).2
    · rw [calcSummary_std_dev]
      split_ifs
      · rw [stdev]
        exact Real.sqrt_nonneg _
      · exact le_refl 0
    · intro hmean
      rw [calcSummary_mean] at hmean
      rw [calcSummary_cv, calcSummary_std_dev, calcSummary_mean, if_pos hmean]
    · intro hmean
      rw [calcSummary_mean] at hmean
      rw [calcSummary_cv, if_neg (show ¬ mean (v :: vs) ≠ 0 from fun h => h hmean)]

/-- C5 witness: the invariants instantiated on the sample `[1]`. -/
theorem claim5_witness :
    calculate_statistics [(1:ℝ)] = some (calcSummary [(1:ℝ)]) ∧
      ((calcSummary [(1:ℝ)]).min_val ≤ (calcSummary [(1:ℝ)]).p25 ∧
        (calcSummary [(1:ℝ)]).p25 ≤ (calcSummary [(1:ℝ)]).median ∧
        (calcSummary [(1:ℝ)]).median ≤ (calcSummary [(1:ℝ)]).p75 ∧
        (calcSummary [(1:ℝ)]).p75 ≤ (calcSummary [(1:ℝ)]).max_val ∧
        0 ≤ (calcSummary [(1:ℝ)]).std_dev ∧
        ((calcSummary [(1:ℝ)]).mean ≠ 0 →
          (calcSummary [(1:ℝ)]).coefficient_variation =
            (calcSummary [(1:ℝ)]).std_dev / (calcSummary [(1:ℝ)]).mean) ∧
        ((calcSummary [(1:ℝ)]).mean = 0 →
          (calcSummary [(1:ℝ)]).coefficient_variation = 0)) :=
  ⟨rfl, claim5_summary_invariants [1] (calcSummary [1]) rfl⟩
